import Mathlib

/-!
Verification development for the Chess Royale repository.

The definitions below are shallow embeddings of:
- the client-side movement rule engine `ChessRules`
  (src/unnamed/part_001, second copy, lines 871-1311; the first copy at
  lines 482-869 has identical movement logic);
- the authoritative server (src/server/server.js): registry, move
  validation, ability/damage handling, defeat and respawn;
- the client `ChessPiece` ability interface (src/client/js/pieces.js and
  src/unnamed/part_002) and the client `Game` loot/entity logic
  (src/unnamed/part_002).

Machine numbers are modelled as `Int` (JavaScript numbers hold integer
values everywhere relevant); maps keyed by socket id are association
lists with `Nat` ids (socket ids are opaque strings); wall-clock
timestamps and randomness are passed in as explicit arguments where the
source consults them.
-/

/-- Teams, as the strings used throughout the source. -/
inductive Team where
  | white
  | black
deriving DecidableEq, Repr

/-- The six piece types of the source. -/
inductive PieceType where
  | pawn
  | rook
  | knight
  | bishop
  | queen
  | king
deriving DecidableEq, Repr

/-- A board position, the `{x, z}` objects of the source. Coordinates are
integers; validity (membership in `[0,8)` on both axes) is a separate
predicate, exactly as in the source. -/
structure Pos where
  x : Int
  z : Int
deriving DecidableEq, Repr

/-- The bounds check shared by `ChessRules.isValidPosition`
(src/unnamed/part_001, lines 1024-1031) and the inline boundary check of
`validateMove` (src/server/server.js, line 309). -/
def isValidPosition (p : Pos) : Bool :=
  decide (0 ≤ p.x ∧ p.x < 8 ∧ 0 ≤ p.z ∧ p.z < 8)

namespace ChessRules

/-- A cell of `ChessRules.boardState`: the `{id, type, team}` records
stored at occupied squares. -/
structure BoardPiece where
  id : Nat
  type : PieceType
  team : Team
deriving DecidableEq, Repr

/-- The board state: the non-null cells of the 8x8 `boardState` array,
as an association from squares to stored pieces. -/
abbrev Board := List (Pos × BoardPiece)

/-- `ChessRules.getPieceAt` (src/unnamed/part_001, lines 1076-1091):
returns null off-board, otherwise the cell content. -/
def getPieceAt (b : Board) (p : Pos) : Option BoardPiece :=
  if isValidPosition p then (b.find? (fun c => c.1 == p)).map (·.2) else none

/-- `ChessRules.isPositionOccupied` (lines 1098-1109). -/
def isPositionOccupied (b : Board) (p : Pos) : Bool :=
  (getPieceAt b p).isSome

/-- `ChessRules.isOpponentPiece` (lines 1117-1120): a piece is present
and its team differs. -/
def isOpponentPiece (b : Board) (p : Pos) (team : Team) : Bool :=
  match getPieceAt b p with
  | some pc => decide (pc.team ≠ team)
  | none => false

/-- A square holds a piece of the given team (used to state the
same-team-destination properties). -/
def isSameTeamAt (b : Board) (p : Pos) (team : Team) : Bool :=
  match getPieceAt b p with
  | some pc => decide (pc.team = team)
  | none => false

/-- The pawn forward direction (`team === 'white' ? -1 : 1`, line 1130). -/
def pawnDirection : Team → Int
  | .white => -1
  | .black => 1

/-- The pawn starting-row test (line 1131). -/
def isStartingRow (team : Team) (pos : Pos) : Bool :=
  match team with
  | .white => decide (pos.z = 6)
  | .black => decide (pos.z = 1)

/-- `ChessRules.getPawnMoves` (lines 1128-1160). -/
def getPawnMoves (b : Board) (team : Team) (pos : Pos) : List Pos :=
  let dir := pawnDirection team
  let forward : Pos := ⟨pos.x, pos.z + dir⟩
  let doubleForward : Pos := ⟨pos.x, pos.z + 2 * dir⟩
  let forwardPart : List Pos :=
    if isValidPosition forward && !isPositionOccupied b forward then
      if isStartingRow team pos && isValidPosition doubleForward
          && !isPositionOccupied b doubleForward then
        [forward, doubleForward]
      else
        [forward]
    else
      []
  let capturePart : List Pos :=
    ([⟨pos.x - 1, pos.z + dir⟩, ⟨pos.x + 1, pos.z + dir⟩] : List Pos).filter
      (fun m => isValidPosition m && isOpponentPiece b m team)
  forwardPart ++ capturePart

/-- The square reached after `i` steps in direction `dir`
(`{x: position.x + dir.x * i, z: position.z + dir.z * i}`). -/
def stepPos (pos dir : Pos) (i : Nat) : Pos :=
  ⟨pos.x + dir.x * (i : Int), pos.z + dir.z * (i : Int)⟩

/-- The ray loop body shared by `getRookMoves` (lines 1177-1194) and
`getBishopMoves` (lines 1245-1262): starting at step index `i` with
`fuel` remaining iterations, collect free squares until the first
occupied square, which is kept only when opponent-occupied; an off-board
square terminates the ray. The source runs `i` from 1 while `i < 8`,
which is `rayMovesFrom b team pos dir 1 7`. -/
def rayMovesFrom (b : Board) (team : Team) (pos dir : Pos) : Nat → Nat → List Pos
  | _, 0 => []
  | i, fuel + 1 =>
    let move := stepPos pos dir i
    if isValidPosition move then
      if isPositionOccupied b move then
        if isOpponentPiece b move team then [move] else []
      else
        move :: rayMovesFrom b team pos dir (i + 1) fuel
    else
      []

/-- The four axis directions of `getRookMoves` (lines 1170-1175). -/
def rookDirections : List Pos := [⟨0, 1⟩, ⟨0, -1⟩, ⟨1, 0⟩, ⟨-1, 0⟩]

/-- The four diagonal directions of `getBishopMoves` (lines 1238-1243). -/
def bishopDirections : List Pos := [⟨1, 1⟩, ⟨1, -1⟩, ⟨-1, 1⟩, ⟨-1, -1⟩]

/-- `ChessRules.getRookMoves` (lines 1168-1197). -/
def getRookMoves (b : Board) (team : Team) (pos : Pos) : List Pos :=
  rookDirections.flatMap (fun d => rayMovesFrom b team pos d 1 7)

/-- `ChessRules.getBishopMoves` (lines 1236-1265). -/
def getBishopMoves (b : Board) (team : Team) (pos : Pos) : List Pos :=
  bishopDirections.flatMap (fun d => rayMovesFrom b team pos d 1 7)

/-- `ChessRules.getQueenMoves` (lines 1273-1279): rook and bishop moves
concatenated. -/
def getQueenMoves (b : Board) (team : Team) (pos : Pos) : List Pos :=
  getRookMoves b team pos ++ getBishopMoves b team pos

/-- The eight knight offsets (lines 1207-1216). -/
def knightOffsets : List Pos :=
  [⟨1, 2⟩, ⟨2, 1⟩, ⟨2, -1⟩, ⟨1, -2⟩, ⟨-1, -2⟩, ⟨-2, -1⟩, ⟨-2, 1⟩, ⟨-1, 2⟩]

/-- `ChessRules.getKnightMoves` (lines 1205-1228): each offset square is
kept when on-board and empty or opponent-occupied. -/
def getKnightMoves (b : Board) (team : Team) (pos : Pos) : List Pos :=
  (knightOffsets.map (fun o => (⟨pos.x + o.x, pos.z + o.z⟩ : Pos))).filter
    (fun np => isValidPosition np && (!isPositionOccupied b np || isOpponentPiece b np team))

/-- The eight king directions (lines 1289-1298). -/
def kingDirections : List Pos :=
  [⟨0, 1⟩, ⟨1, 1⟩, ⟨1, 0⟩, ⟨1, -1⟩, ⟨0, -1⟩, ⟨-1, -1⟩, ⟨-1, 0⟩, ⟨-1, 1⟩]

/-- `ChessRules.getKingMoves` (lines 1287-1309). -/
def getKingMoves (b : Board) (team : Team) (pos : Pos) : List Pos :=
  (kingDirections.map (fun o => (⟨pos.x + o.x, pos.z + o.z⟩ : Pos))).filter
    (fun np => isValidPosition np && (!isPositionOccupied b np || isOpponentPiece b np team))

/-- `ChessRules.getValidMoves` (lines 1038-1069): dispatch on the type of
the piece stored at the queried square. -/
def getValidMoves (b : Board) (pos : Pos) : List Pos :=
  if isValidPosition pos then
    match getPieceAt b pos with
    | none => []
    | some piece =>
      match piece.type with
      | .pawn => getPawnMoves b piece.team pos
      | .rook => getRookMoves b piece.team pos
      | .knight => getKnightMoves b piece.team pos
      | .bishop => getBishopMoves b piece.team pos
      | .queen => getQueenMoves b piece.team pos
      | .king => getKingMoves b piece.team pos
  else
    []

end ChessRules

namespace Server

/-- A server-side player record: the object stored by
`players.set(data.id, {...})` (src/server/server.js, lines 100-109).
The source fields `effects` (always the empty array), `lastMoveTime` and
`respawnTime` (wall-clock timestamps) are omitted; `isSpectator` is the
flag set by the respawn-disabled branch of `handlePlayerDefeat`
(line 493). -/
structure Player where
  id : Nat
  type : PieceType
  team : Team
  position : Pos
  hp : Int
  respawning : Bool
  isSpectator : Bool
deriving DecidableEq, Repr

/-- The `players` Map of server.js (line 20), keyed by socket id. -/
abbrev Registry := List (Nat × Player)

/-- `players.get(id)`. -/
def lookupPlayer (reg : Registry) (id : Nat) : Option Player :=
  (reg.find? (fun e => e.1 == id)).map (·.2)

/-- `players.set(id, p)`: replace the entry when the key is present,
append it otherwise (JavaScript Map semantics). -/
def setPlayer : Registry → Nat → Player → Registry
  | [], id, p => [(id, p)]
  | e :: rest, id, p =>
    if e.1 = id then (id, p) :: rest else e :: setPlayer rest id p

/-- The `gameSettings` object (src/server/server.js, lines 53-58). -/
structure GameSettings where
  respawnEnabled : Bool
  respawnTime : Nat
  maxPlayers : Nat
  friendlyFire : Bool
deriving DecidableEq, Repr

/-- The default settings of the source: respawn enabled after 5 seconds,
32 players, friendly fire off. -/
def gameSettings : GameSettings :=
  { respawnEnabled := true, respawnTime := 5, maxPlayers := 32, friendlyFire := false }

/-- `getBaseHp` (src/server/server.js, lines 502-513). -/
def getBaseHp : PieceType → Int
  | .pawn => 5
  | .rook => 7
  | .knight => 7
  | .bishop => 7
  | .queen => 10
  | .king => 15

/-- `isAnyPieceAt` (lines 402-409). -/
def isAnyPieceAt (reg : Registry) (p : Pos) : Bool :=
  reg.any (fun e => e.2.position == p)

/-- Server `isPositionOccupied` (lines 417-424): despite its name it
tests for an opponent piece at the square. -/
def isPositionOccupied (reg : Registry) (p : Pos) (team : Team) : Bool :=
  reg.any (fun e => e.2.position == p && e.2.team != team)

/-- The body of the `while` loop of `isPathBlocked` (lines 385-392),
with explicit fuel. `validateMove` only calls `isPathBlocked` on
axis-aligned or diagonal pairs of on-board squares, for which at most 7
steps are taken before `cur = target`, so fuel 16 is never exhausted on
those inputs (the source loop would not terminate on other inputs). -/
def isPathBlockedAux (reg : Registry) (dir : Pos) : Pos → Pos → Nat → Bool
  | _, _, 0 => false
  | cur, target, fuel + 1 =>
    if cur = target then false
    else if isAnyPieceAt reg cur then true
    else isPathBlockedAux reg dir ⟨cur.x + dir.x, cur.z + dir.z⟩ target fuel

/-- `isPathBlocked` (src/server/server.js, lines 376-395): walk from the
square after `start` toward `target`, excluding `target` itself. -/
def isPathBlocked (reg : Registry) (start target : Pos) : Bool :=
  let dirX : Int := if start.x < target.x then 1 else if target.x < start.x then -1 else 0
  let dirZ : Int := if start.z < target.z then 1 else if target.z < start.z then -1 else 0
  isPathBlockedAux reg ⟨dirX, dirZ⟩ ⟨start.x + dirX, start.z + dirZ⟩ target 16

/-- `validateMove` (src/server/server.js, lines 302-368). The
`typeof`-shape check of line 304 is vacuous here because `Pos` always
carries two integers. -/
def validateMove (reg : Registry) (player : Player) (newPosition : Pos) : Bool :=
  if !isValidPosition newPosition then false
  else
    let distX := (newPosition.x - player.position.x).natAbs
    let distZ := (newPosition.z - player.position.z).natAbs
    match player.type with
    | .pawn =>
      let forwardDirection : Int := if player.team = .white then -1 else 1
      let isStartingPosition : Bool :=
        decide ((player.team = .white ∧ player.position.z = 6) ∨
                (player.team = .black ∧ player.position.z = 1))
      let zChange := newPosition.z - player.position.z
      if distX = 0 then
        if Int.sign zChange = forwardDirection then
          if zChange.natAbs = 1 then true
          else if isStartingPosition && decide (zChange.natAbs = 2) then true
          else false
        else false
      else if distX = 1 ∧ distZ = 1 then
        if Int.sign zChange = forwardDirection then
          isPositionOccupied reg newPosition player.team
        else false
      else false
    | .rook =>
      decide (distX = 0 ∨ distZ = 0) && !isPathBlocked reg player.position newPosition
    | .knight =>
      decide ((distX = 2 ∧ distZ = 1) ∨ (distX = 1 ∧ distZ = 2))
    | .bishop =>
      decide (distX = distZ) && !isPathBlocked reg player.position newPosition
    | .queen =>
      decide ((distX = 0 ∨ distZ = 0) ∨ distX = distZ) &&
        !isPathBlocked reg player.position newPosition
    | .king =>
      decide (distX ≤ 1 ∧ distZ ≤ 1)

/-- The effective damage of an ability message:
`data.damage || 1` (src/server/server.js, line 169). A missing or zero
damage field is falsy and yields 1; any other value is used as sent. -/
def effectiveDamage : Option Int → Int
  | none => 1
  | some v => if v = 0 then 1 else v

/-- `handlePlayerDefeat` (src/server/server.js, lines 453-495), reduced
to its registry effect on the defeated player. The second component
counts the respawn timers scheduled by the call: the respawn-enabled
branch always schedules exactly one `setTimeout`; the disabled branch
clamps health to 0 and marks the player a spectator. -/
def handlePlayerDefeat (settings : GameSettings) (p : Player) : Player × Nat :=
  if settings.respawnEnabled then
    ({ p with respawning := true }, 1)
  else
    ({ p with hp := 0, isSpectator := true }, 0)

/-- One iteration of the `targets.forEach` body of the ability handler
(src/server/server.js, lines 159-185): the redundant friendly-fire
recheck, the health subtraction, and the defeat check. -/
def abilityHitOne (settings : GameSettings) (attacker : Player) (damage : Option Int)
    (t : Player) : Player × Nat :=
  if !settings.friendlyFire && t.team == attacker.team then (t, 0)
  else
    let t1 := { t with hp := t.hp - effectiveDamage damage }
    if t1.hp ≤ 0 then handlePlayerDefeat settings t1 else (t1, 0)

/-- The target filter of `findTargetsAtPosition` (lines 432-446): at the
target square, and not a teammate unless friendly fire is on. -/
def isAbilityTarget (settings : GameSettings) (attacker : Player) (target : Pos)
    (p : Player) : Bool :=
  p.position == target && (settings.friendlyFire || p.team != attacker.team)

/-- The `socket.on('ability')` handler (src/server/server.js, lines
149-190): look up the attacker, collect occupants of the target square
subject to the friendly-fire filter, and damage each. Returns the
updated registry and the number of respawn timers scheduled by the
event. An unknown attacker id is a no-op. -/
def abilityEvent (settings : GameSettings) (reg : Registry) (attackerId : Nat)
    (target : Pos) (damage : Option Int) : Registry × Nat :=
  match lookupPlayer reg attackerId with
  | none => (reg, 0)
  | some attacker =>
    let results := reg.map (fun e =>
      if isAbilityTarget settings attacker target e.2 then
        let r := abilityHitOne settings attacker damage e.2
        ((e.1, r.1), r.2)
      else
        ((e.1, e.2), 0))
    (results.map (·.1), (results.map (·.2)).sum)

/-- The registration data carried by `confirmPieceAssignment` messages.
The health field uses `data.hp || getBaseHp(data.type)` semantics, so a
missing or zero hp falls back to the base table. -/
structure ConfirmData where
  id : Nat
  type : PieceType
  team : Team
  position : Pos
  hp : Option Int
deriving DecidableEq, Repr

/-- The player record built by the `confirmPieceAssignment` handler
(src/server/server.js, lines 100-109). -/
def mkConfirmedPlayer (data : ConfirmData) : Player :=
  { id := data.id
    type := data.type
    team := data.team
    position := data.position
    hp := match data.hp with
          | none => getBaseHp data.type
          | some v => if v = 0 then getBaseHp data.type else v
    respawning := false
    isSpectator := false }

/-- The `socket.on('confirmPieceAssignment')` handler (lines 96-121):
unconditionally `players.set(data.id, {...})`. -/
def confirmPieceAssignment (reg : Registry) (data : ConfirmData) : Registry :=
  setPlayer reg data.id (mkConfirmedPlayer data)

/-- The body of the respawn `setTimeout` callback
(src/server/server.js, lines 470-489): only when the id is still in the
registry, reset health to base, move to the (randomly chosen) position
passed in here explicitly, and clear the respawning flag. -/
def respawnCallback (reg : Registry) (id : Nat) (newPos : Pos) : Registry :=
  if (lookupPlayer reg id).isSome then
    reg.map (fun e =>
      if e.1 == id then
        (e.1, { e.2 with hp := getBaseHp e.2.type, position := newPos, respawning := false })
      else
        e)
  else
    reg

end Server

namespace Client

/-- The ability table entries of `ChessPiece.getAbilityDetails`
(src/client/js/pieces.js, lines 294-308; src/unnamed/part_002, lines
303-314). -/
structure Ability where
  damage : Int
  cooldown : Int
  healing : Option Int
deriving DecidableEq, Repr

/-- `ChessPiece.getAbilityDetails`: the fixed per-type ability table. -/
def getAbilityDetails : PieceType → Ability
  | .pawn => { damage := 2, cooldown := 5, healing := none }
  | .rook => { damage := 3, cooldown := 10, healing := none }
  | .knight => { damage := 1, cooldown := 8, healing := none }
  | .bishop => { damage := 2, cooldown := 7, healing := none }
  | .queen => { damage := 3, cooldown := 12, healing := none }
  | .king => { damage := 0, cooldown := 15, healing := some 1 }

/-- The ability-relevant state of a client `ChessPiece` (type and
cooldown; rendering state is out of scope). -/
structure ClientPiece where
  type : PieceType
  cooldown : Int
deriving DecidableEq, Repr

/-- `ChessPiece.useAbility` (src/unnamed/part_002, lines 275-298;
src/client/js/pieces.js, lines 274-289): a positive cooldown makes the
call return early with no state change and no emitted ability message;
otherwise the cooldown is set to the ability value from the table and
the ability (whose damage the part_002 version emits to the server) is
returned. -/
def useAbility (p : ClientPiece) : Option Ability × ClientPiece :=
  if p.cooldown > 0 then (none, p)
  else
    let a := getAbilityDetails p.type
    (some a, { p with cooldown := a.cooldown })

end Client

namespace Game

/-- A player record of the client `Game` class (src/unnamed/part_002):
the fields touched by `collectLoot` (lines 836-877) and
`moveNeutralEntity` (lines 784-831). -/
structure GamePlayer where
  id : Nat
  type : PieceType
  team : Team
  position : Pos
  hp : Int
  hasShield : Bool
  shieldDuration : Int
  hasDoubleMove : Bool
  hasVineTrap : Bool
deriving DecidableEq, Repr

/-- The three loot types (src/unnamed/part_002, lines 634-639). -/
inductive LootType where
  | doubleMove
  | petalShield
  | vineTrap
deriving DecidableEq, Repr

/-- A loot item (lines 646-652); duration is 10 for petalShield, 5
otherwise. -/
structure Loot where
  id : Nat
  type : LootType
  position : Pos
  duration : Int
deriving DecidableEq, Repr

/-- The loot duration rule of `spawnLoot` (line 649). -/
def lootDuration (t : LootType) : Int :=
  if t = .petalShield then 10 else 5

/-- The per-player effect of `Game.collectLoot` (lines 845-862): set the
flag for the collected loot type; a petal shield also stores its
duration. -/
def applyLootEffect (p : GamePlayer) (loot : Loot) : GamePlayer :=
  match loot.type with
  | .doubleMove => { p with hasDoubleMove := true }
  | .petalShield => { p with hasShield := true, shieldDuration := loot.duration }
  | .vineTrap => { p with hasVineTrap := true }

/-- The collision-damage step of `Game.moveNeutralEntity` (line 811):
`player.hp -= 2`, with no look at any shield state. -/
def vineBeastCollide (p : GamePlayer) : GamePlayer :=
  { p with hp := p.hp - 2 }

end Game

/-- A white knight at the corner, used to probe the server validator. -/
def c1Knight : Server.Player :=
  { id := 1, type := .knight, team := .white, position := ⟨0, 0⟩,
    hp := 7, respawning := false, isSpectator := false }

/-- A white pawn standing on the knight's destination square. -/
def c1Teammate : Server.Player :=
  { id := 2, type := .pawn, team := .white, position := ⟨1, 2⟩,
    hp := 5, respawning := false, isSpectator := false }

/-- A registry holding the knight and its teammate. -/
def c1Registry : Server.Registry := [(1, c1Knight), (2, c1Teammate)]

/-- A one-rook board used to instantiate the amended C1 theorem. -/
def c1Board : ChessRules.Board := [(⟨0, 0⟩, ⟨1, .rook, .white⟩)]

/-- The board of the spec blocking scenario: a white rook at the corner
and an opposing pawn three squares down the file. -/
def c2Board : ChessRules.Board :=
  [(⟨0, 0⟩, ⟨1, .rook, .white⟩), (⟨0, 3⟩, ⟨2, .pawn, .black⟩)]

/-- A bishop about to collect a petal shield. -/
def c4Player : Game.GamePlayer :=
  { id := 3, type := .bishop, team := .white, position := ⟨2, 2⟩, hp := 7,
    hasShield := false, shieldDuration := 0, hasDoubleMove := false, hasVineTrap := false }

/-- A petal-shield loot item on the bishop's square. -/
def c4Loot : Game.Loot :=
  { id := 9, type := .petalShield, position := ⟨2, 2⟩,
    duration := Game.lootDuration .petalShield }

/-- A black knight targeted through the server damage path. -/
def c4ServerTarget : Server.Player :=
  { id := 4, type := .knight, team := .black, position := ⟨5, 5⟩, hp := 7,
    respawning := false, isSpectator := false }

/-- A white queen attacking through the server damage path. -/
def c4ServerAttacker : Server.Player :=
  { id := 5, type := .queen, team := .white, position := ⟨0, 0⟩, hp := 10,
    respawning := false, isSpectator := false }

/-- The attacker of the double-defeat scenario. -/
def c5Attacker : Server.Player :=
  { id := 1, type := .rook, team := .white, position := ⟨0, 0⟩, hp := 7,
    respawning := false, isSpectator := false }

/-- A black pawn at 1 HP about to be defeated twice. -/
def c5Target : Server.Player :=
  { id := 2, type := .pawn, team := .black, position := ⟨3, 3⟩, hp := 1,
    respawning := false, isSpectator := false }

/-- The registry holding attacker and target. -/
def c5Registry : Server.Registry := [(1, c5Attacker), (2, c5Target)]

/-- The registry and timer count after the first ability hit. -/
def c5After1 : Server.Registry × Nat :=
  Server.abilityEvent Server.gameSettings c5Registry 1 ⟨3, 3⟩ (some 2)

/-- The registry and timer count after a second hit on the already
defeated piece. -/
def c5After2 : Server.Registry × Nat :=
  Server.abilityEvent Server.gameSettings c5After1.1 1 ⟨3, 3⟩ (some 1)

/-- Registration data for the queen attacker of the clamping scenario. -/
def c6AttackerData : Server.ConfirmData :=
  { id := 1, type := .queen, team := .white, position := ⟨0, 0⟩, hp := some 10 }

/-- Registration data for the king of the clamping scenario. -/
def c6KingData : Server.ConfirmData :=
  { id := 2, type := .king, team := .black, position := ⟨4, 0⟩, hp := some 15 }

/-- A reachable registry: both pieces registered through the
`confirmPieceAssignment` handler. -/
def c6Registry : Server.Registry :=
  Server.confirmPieceAssignment (Server.confirmPieceAssignment [] c6AttackerData) c6KingData

/-- The client-side view of the attacker whose ability is on cooldown. -/
def c7Attacker : Client.ClientPiece := { type := .pawn, cooldown := 5 }

/-- The server record of the same attacker. -/
def c7AttackerServer : Server.Player :=
  { id := 1, type := .pawn, team := .white, position := ⟨0, 0⟩, hp := 5,
    respawning := false, isSpectator := false }

/-- An opposing pawn on the targeted square. -/
def c7Target : Server.Player :=
  { id := 2, type := .pawn, team := .black, position := ⟨3, 3⟩, hp := 5,
    respawning := false, isSpectator := false }

/-- The registry holding both pieces. -/
def c7Registry : Server.Registry := [(1, c7AttackerServer), (2, c7Target)]

/-- The first registration of the duplicate-id scenario. -/
def c8First : Server.ConfirmData :=
  { id := 1, type := .pawn, team := .white, position := ⟨0, 6⟩, hp := none }

/-- A second registration reusing id 1 with different data. -/
def c8Second : Server.ConfirmData :=
  { id := 1, type := .queen, team := .black, position := ⟨3, 0⟩, hp := some 10 }

/-- A bystander entry under id 2, untouched by re-registration of id 1. -/
def c8Other : Server.Player :=
  { id := 2, type := .rook, team := .black, position := ⟨7, 0⟩, hp := 7,
    respawning := false, isSpectator := false }

/-- A surviving player unrelated to the disconnected id. -/
def c9Survivor : Server.Player :=
  { id := 6, type := .king, team := .white, position := ⟨4, 7⟩, hp := 15,
    respawning := false, isSpectator := false }

/-- The attacking knight of the C10 scenario. -/
def c10Attacker : Server.Player :=
  { id := 1, type := .knight, team := .white, position := ⟨0, 0⟩, hp := 7,
    respawning := false, isSpectator := false }

/-- The opposing bishop on the targeted square. -/
def c10Target : Server.Player :=
  { id := 2, type := .bishop, team := .black, position := ⟨4, 4⟩, hp := 7,
    respawning := false, isSpectator := false }

/-- The registry of the C10 scenario. -/
def c10Registry : Server.Registry := [(1, c10Attacker), (2, c10Target)]

namespace ChessRules

/-- An unoccupied square never holds a same-team piece. -/
lemma isSameTeamAt_of_not_occupied {b : Board} {p : Pos} {t : Team}
    (h : isPositionOccupied b p = false) : isSameTeamAt b p t = false := by
  unfold isPositionOccupied at h
  unfold isSameTeamAt
  cases hp : getPieceAt b p with
  | none => rfl
  | some pc => rw [hp] at h; simp at h

/-- An opponent-occupied square never holds a same-team piece. -/
lemma isSameTeamAt_of_opponent {b : Board} {p : Pos} {t : Team}
    (h : isOpponentPiece b p t = true) : isSameTeamAt b p t = false := by
  unfold isOpponentPiece at h
  unfold isSameTeamAt
  cases hp : getPieceAt b p with
  | none => rfl
  | some pc =>
    rw [hp] at h
    simp only [decide_eq_true_eq] at h
    simp [h]

/-- Soundness of the ray loop: every produced destination is some step
`k` of the ray, all strictly earlier steps are on-board and free, the
destination is on-board, and it is free or opponent-occupied. -/
lemma ray_sound (b : Board) (team : Team) (pos dir : Pos) :
    ∀ (fuel i : Nat) (q : Pos), q ∈ rayMovesFrom b team pos dir i fuel →
    ∃ k, i ≤ k ∧ k < i + fuel ∧ q = stepPos pos dir k ∧
      (∀ j, i ≤ j → j < k → isValidPosition (stepPos pos dir j) = true ∧
        isPositionOccupied b (stepPos pos dir j) = false) ∧
      isValidPosition (stepPos pos dir k) = true ∧
      (isPositionOccupied b (stepPos pos dir k) = false ∨
        isOpponentPiece b (stepPos pos dir k) team = true) := by
  intro fuel
  induction fuel with
  | zero =>
    intro i q h
    simp [rayMovesFrom] at h
  | succ n ih =>
    intro i q h
    simp only [rayMovesFrom] at h
    by_cases hv : isValidPosition (stepPos pos dir i) = true
    · rw [if_pos hv] at h
      by_cases ho : isPositionOccupied b (stepPos pos dir i) = true
      · rw [if_pos ho] at h
        by_cases hop : isOpponentPiece b (stepPos pos dir i) team = true
        · rw [if_pos hop] at h
          rcases List.mem_singleton.mp h with rfl
          exact ⟨i, le_refl i, by omega, rfl, by omega, hv, Or.inr hop⟩
        · rw [if_neg hop] at h
          simp at h
      · rw [if_neg ho] at h
        rcases List.mem_cons.mp h with rfl | htail
        · exact ⟨i, le_refl i, by omega, rfl, by omega, hv,
            Or.inl (Bool.eq_false_iff.mpr ho)⟩
        · obtain ⟨k, hk1, hk2, hq, hpri, hvk, hlast⟩ := ih (i + 1) q htail
          refine ⟨k, by omega, by omega, hq, ?_, hvk, hlast⟩
          intro j hj1 hj2
          by_cases hji : j = i
          · subst hji
            exact ⟨hv, Bool.eq_false_iff.mpr ho⟩
          · exact hpri j (by omega) hj2
    · rw [if_neg hv] at h
      simp at h

/-- Completeness of the ray loop for captures: when all steps before `k`
are on-board and free and step `k` is an on-board opponent-occupied
square within the loop range, the ray produces step `k`. -/
lemma ray_complete (b : Board) (team : Team) (pos dir : Pos) :
    ∀ (fuel i k : Nat), i ≤ k → k < i + fuel →
    (∀ j, i ≤ j → j < k → isValidPosition (stepPos pos dir j) = true ∧
      isPositionOccupied b (stepPos pos dir j) = false) →
    isValidPosition (stepPos pos dir k) = true →
    isPositionOccupied b (stepPos pos dir k) = true →
    isOpponentPiece b (stepPos pos dir k) team = true →
    stepPos pos dir k ∈ rayMovesFrom b team pos dir i fuel := by
  intro fuel
  induction fuel with
  | zero =>
    intro i k h1 h2
    omega
  | succ n ih =>
    intro i k h1 h2 hpri hvk hok hopk
    rcases Nat.eq_or_lt_of_le h1 with heq | hlt
    · subst heq
      simp [rayMovesFrom, hvk, hok, hopk]
    · have hpi := hpri i (le_refl i) hlt
      simp only [rayMovesFrom, if_pos hpi.1, hpi.2, Bool.false_eq_true, if_false]
      exact List.mem_cons_of_mem _ (ih (i + 1) k (by omega) (by omega)
        (fun j hj1 hj2 => hpri j (by omega) hj2) hvk hok hopk)

/-- Along any of the eight ray directions, distinct step counts reach
distinct squares. -/
lemma stepPos_inj {pos d : Pos} (hd : d ∈ rookDirections ++ bishopDirections)
    {k k' : Nat} (h : stepPos pos d k = stepPos pos d k') : k = k' := by
  simp only [rookDirections, bishopDirections, List.mem_append, List.mem_cons,
    List.not_mem_nil, or_false] at hd
  rcases hd with (h1 | h1 | h1 | h1) | (h1 | h1 | h1 | h1) <;>
  · subst h1
    simp only [stepPos, Pos.mk.injEq] at h
    omega

/-- Between an on-board origin and an on-board step `i` of a ray, every
intermediate step is on-board, and `i` is at most 7. -/
lemma stepPos_valid_between {pos d : Pos} (hd : d ∈ rookDirections ++ bishopDirections)
    {i j : Nat} (hj : j ≤ i)
    (hpos : isValidPosition pos = true)
    (hvi : isValidPosition (stepPos pos d i) = true) :
    isValidPosition (stepPos pos d j) = true ∧ i ≤ 7 := by
  simp only [rookDirections, bishopDirections, List.mem_append, List.mem_cons,
    List.not_mem_nil, or_false] at hd
  rcases hd with (h1 | h1 | h1 | h1) | (h1 | h1 | h1 | h1) <;>
  · subst h1
    simp only [isValidPosition, stepPos, decide_eq_true_eq] at *
    omega

/-- Destinations kept by the shared knight/king filter are on-board and
not same-team-occupied. -/
lemma filter_moves_ok {b : Board} {team : Team} {l : List Pos} {q : Pos}
    (h : q ∈ l.filter (fun np => isValidPosition np &&
      (!isPositionOccupied b np || isOpponentPiece b np team))) :
    isValidPosition q = true ∧ isSameTeamAt b q team = false := by
  rw [List.mem_filter] at h
  rcases h with ⟨-, hcond⟩
  rw [Bool.and_eq_true, Bool.or_eq_true, Bool.not_eq_true'] at hcond
  rcases hcond with ⟨hv, ho | ho⟩
  exacts [⟨hv, isSameTeamAt_of_not_occupied ho⟩, ⟨hv, isSameTeamAt_of_opponent ho⟩]

/-- Destinations of a ray union are on-board and not same-team-occupied. -/
lemma ray_flatMap_ok {b : Board} {team : Team} {pos q : Pos} {dirs : List Pos}
    (h : q ∈ dirs.flatMap (fun d => rayMovesFrom b team pos d 1 7)) :
    isValidPosition q = true ∧ isSameTeamAt b q team = false := by
  rw [List.mem_flatMap] at h
  rcases h with ⟨d, -, hq⟩
  obtain ⟨k, -, -, rfl, -, hv, hlast⟩ := ray_sound b team pos d 7 1 q hq
  rcases hlast with ho | ho
  exacts [⟨hv, isSameTeamAt_of_not_occupied ho⟩, ⟨hv, isSameTeamAt_of_opponent ho⟩]

/-- Pawn destinations are on-board and not same-team-occupied. -/
lemma getPawnMoves_ok {b : Board} {team : Team} {pos q : Pos}
    (h : q ∈ getPawnMoves b team pos) :
    isValidPosition q = true ∧ isSameTeamAt b q team = false := by
  simp only [getPawnMoves] at h
  rw [List.mem_append] at h
  rcases h with h | h
  · by_cases h1 : (isValidPosition ⟨pos.x, pos.z + pawnDirection team⟩ &&
        !isPositionOccupied b ⟨pos.x, pos.z + pawnDirection team⟩) = true
    · rw [if_pos h1] at h
      rw [Bool.and_eq_true, Bool.not_eq_true'] at h1
      by_cases h2 : (isStartingRow team pos &&
          isValidPosition ⟨pos.x, pos.z + 2 * pawnDirection team⟩ &&
          !isPositionOccupied b ⟨pos.x, pos.z + 2 * pawnDirection team⟩) = true
      · rw [if_pos h2] at h
        rw [Bool.and_eq_true, Bool.and_eq_true, Bool.not_eq_true'] at h2
        rcases List.mem_cons.mp h with rfl | h
        · exact ⟨h1.1, isSameTeamAt_of_not_occupied h1.2⟩
        · rcases List.mem_singleton.mp h with rfl
          exact ⟨h2.1.2, isSameTeamAt_of_not_occupied h2.2⟩
      · rw [if_neg h2] at h
        rcases List.mem_singleton.mp h with rfl
        exact ⟨h1.1, isSameTeamAt_of_not_occupied h1.2⟩
    · rw [if_neg h1] at h
      simp at h
  · rw [List.mem_filter] at h
    rcases h with ⟨-, hcond⟩
    rw [Bool.and_eq_true] at hcond
    exact ⟨hcond.1, isSameTeamAt_of_opponent hcond.2⟩

/-- All destinations produced by `getValidMoves` are on-board and never
occupied by a piece of the moving piece's own team. -/
lemma getValidMoves_ok {b : Board} {pos : Pos} {piece : BoardPiece} {q : Pos}
    (hpc : getPieceAt b pos = some piece)
    (h : q ∈ getValidMoves b pos) :
    isValidPosition q = true ∧ isSameTeamAt b q piece.team = false := by
  unfold getValidMoves at h
  by_cases hv : isValidPosition pos = true
  · rw [if_pos hv, hpc] at h
    obtain ⟨pid, ptype, pteam⟩ := piece
    cases ptype <;> dsimp only at h ⊢
    · exact getPawnMoves_ok h
    · exact @ray_flatMap_ok b pteam pos q rookDirections h
    · exact filter_moves_ok h
    · exact @ray_flatMap_ok b pteam pos q bishopDirections h
    · rcases List.mem_append.mp h with h | h
      · exact @ray_flatMap_ok b pteam pos q rookDirections h
      · exact @ray_flatMap_ok b pteam pos q bishopDirections h
    · exact filter_moves_ok h
  · rw [if_neg hv] at h
    simp at h

end ChessRules

namespace Server

/-- The boundary check of `validateMove` rejects every off-board
destination before any per-type logic runs. -/
lemma validateMove_offboard {reg : Registry} {player : Player} {np : Pos}
    (h : isValidPosition np = false) : validateMove reg player np = false := by
  unfold validateMove
  rw [h]
  rfl

end Server

/-- C1 counterexample: the server `validateMove` accepts a knight move
onto a square occupied by a piece of the knight's own team, so the claim
that a same-team-occupied destination is always judged illegal is false
for `validateMove`. -/
theorem C1_counterexample :
    Server.validateMove c1Registry c1Knight ⟨1, 2⟩ = true ∧
    Server.lookupPlayer c1Registry 2 = some c1Teammate ∧
    c1Teammate.position = (⟨1, 2⟩ : Pos) ∧
    c1Teammate.team = c1Knight.team := by
  refine ⟨?_, rfl, rfl, rfl⟩
  decide

/-- C1 (amended): for all six piece types, the ChessRules movement
engine never produces an off-board or same-team-occupied destination;
the server `validateMove` rejects every off-board destination, but it
does not reject same-team-occupied destinations. -/
theorem C1_amended :
    (∀ (b : ChessRules.Board) (pos : Pos) (piece : ChessRules.BoardPiece),
      ChessRules.getPieceAt b pos = some piece →
      ∀ q ∈ ChessRules.getValidMoves b pos,
        isValidPosition q = true ∧ ChessRules.isSameTeamAt b q piece.team = false) ∧
    (∀ (reg : Server.Registry) (player : Server.Player) (np : Pos),
      isValidPosition np = false → Server.validateMove reg player np = false) := by
  constructor
  · intro b pos piece hpc q hq
    exact ChessRules.getValidMoves_ok hpc hq
  · intro reg player np h
    exact Server.validateMove_offboard h

/-- Witness for the amended C1 theorem at concrete inputs. -/
theorem C1_amended_witness :
    (isValidPosition ⟨0, 1⟩ = true ∧
      ChessRules.isSameTeamAt c1Board ⟨0, 1⟩ .white = false) ∧
    Server.validateMove c1Registry c1Knight ⟨8, 0⟩ = false := by
  constructor
  · exact C1_amended.1 c1Board ⟨0, 0⟩ ⟨1, .rook, .white⟩ (by decide) ⟨0, 1⟩ (by decide)
  · exact C1_amended.2 c1Registry c1Knight ⟨8, 0⟩ (by decide)

/-- C2: rook, bishop and queen destinations arise from the four axis
rays and the four diagonal rays respectively; along any such ray whose
first occupied square is step i0, no square strictly past step i0 is
produced, and step i0 itself is produced exactly when its occupant is an
opponent. -/
theorem C2_ray_blocking (b : ChessRules.Board) (team : Team) (pos d : Pos)
    (hd : d ∈ ChessRules.rookDirections ++ ChessRules.bishopDirections)
    (hpos : isValidPosition pos = true)
    (i0 : Nat) (hi : 1 ≤ i0)
    (hvalid : isValidPosition (ChessRules.stepPos pos d i0) = true)
    (hocc : ChessRules.isPositionOccupied b (ChessRules.stepPos pos d i0) = true)
    (hfree : ∀ j, 1 ≤ j → j < i0 →
      ChessRules.isPositionOccupied b (ChessRules.stepPos pos d j) = false) :
    ChessRules.getRookMoves b team pos =
      ChessRules.rookDirections.flatMap (fun e => ChessRules.rayMovesFrom b team pos e 1 7) ∧
    ChessRules.getBishopMoves b team pos =
      ChessRules.bishopDirections.flatMap (fun e => ChessRules.rayMovesFrom b team pos e 1 7) ∧
    ChessRules.getQueenMoves b team pos =
      ChessRules.getRookMoves b team pos ++ ChessRules.getBishopMoves b team pos ∧
    (∀ k, i0 < k →
      ChessRules.stepPos pos d k ∉ ChessRules.rayMovesFrom b team pos d 1 7) ∧
    (ChessRules.stepPos pos d i0 ∈ ChessRules.rayMovesFrom b team pos d 1 7 ↔
      ChessRules.isOpponentPiece b (ChessRules.stepPos pos d i0) team = true) := by
  refine ⟨rfl, rfl, rfl, ?_, ?_, ?_⟩
  · intro k hk hmem
    obtain ⟨k2, hk1, hk2, heq, hpri, -, -⟩ :=
      ChessRules.ray_sound b team pos d 7 1 _ hmem
    have hkk := ChessRules.stepPos_inj hd heq
    subst hkk
    exact absurd (hpri i0 hi hk).2 (by rw [hocc]; simp)
  · intro hmem
    obtain ⟨k2, hk1, hk2, heq, -, -, hlast⟩ :=
      ChessRules.ray_sound b team pos d 7 1 _ hmem
    have hkk := ChessRules.stepPos_inj hd heq
    rw [← hkk] at hlast
    rcases hlast with ho | ho
    · rw [hocc] at ho
      simp at ho
    · exact ho
  · intro hop
    have hbound := (ChessRules.stepPos_valid_between hd (le_refl i0) hpos hvalid).2
    refine ChessRules.ray_complete b team pos d 7 1 i0 hi (by omega) ?_ hvalid hocc hop
    intro j hj1 hj2
    exact ⟨(ChessRules.stepPos_valid_between hd (by omega : j ≤ i0) hpos hvalid).1,
      hfree j hj1 hj2⟩

/-- Witness for C2 at the spec scenario: along the positive-z ray from
the rook, the opponent square three steps away is produced and the
square past it is not. -/
theorem C2_ray_blocking_witness :
    ChessRules.stepPos ⟨0, 0⟩ ⟨0, 1⟩ 4 ∉
      ChessRules.rayMovesFrom c2Board .white ⟨0, 0⟩ ⟨0, 1⟩ 1 7 ∧
    ChessRules.stepPos ⟨0, 0⟩ ⟨0, 1⟩ 3 ∈
      ChessRules.rayMovesFrom c2Board .white ⟨0, 0⟩ ⟨0, 1⟩ 1 7 := by
  have h := C2_ray_blocking c2Board .white ⟨0, 0⟩ ⟨0, 1⟩ (by decide) (by decide)
    3 (by decide) (by decide) (by decide)
    (by
      intro j hj1 hj2
      interval_cases j <;> decide)
  exact ⟨h.2.2.2.1 4 (by decide), h.2.2.2.2.mpr (by decide)⟩

/-- C3: on any board, the pawn destinations are exactly one square
forward (white toward decreasing z, black toward increasing z) when that
square is on-board and empty; two squares forward exactly when the pawn
is on its home row (6 for white, 1 for black) and both the intervening
and target squares are empty; and a diagonally forward-adjacent square
exactly when it is on-board and opponent-occupied. -/
theorem C3_pawn_moves (b : ChessRules.Board) (team : Team) (pos : Pos)
    (hpos : isValidPosition pos = true) (q : Pos) :
    (q ∈ ChessRules.getPawnMoves b team pos ↔
      (q = ⟨pos.x, pos.z + ChessRules.pawnDirection team⟩ ∧
        isValidPosition q = true ∧ ChessRules.isPositionOccupied b q = false) ∨
      (q = ⟨pos.x, pos.z + 2 * ChessRules.pawnDirection team⟩ ∧
        ChessRules.isStartingRow team pos = true ∧
        ChessRules.isPositionOccupied b
          ⟨pos.x, pos.z + ChessRules.pawnDirection team⟩ = false ∧
        ChessRules.isPositionOccupied b q = false) ∨
      ((q = ⟨pos.x - 1, pos.z + ChessRules.pawnDirection team⟩ ∨
        q = ⟨pos.x + 1, pos.z + ChessRules.pawnDirection team⟩) ∧
        isValidPosition q = true ∧ ChessRules.isOpponentPiece b q team = true)) ∧
    ChessRules.pawnDirection .white = -1 ∧
    ChessRules.pawnDirection .black = 1 ∧
    (ChessRules.isStartingRow team pos = true ↔
      (team = .white ∧ pos.z = 6) ∨ (team = .black ∧ pos.z = 1)) := by
  have hvf : ChessRules.isStartingRow team pos = true →
      isValidPosition ⟨pos.x, pos.z + ChessRules.pawnDirection team⟩ = true := by
    intro hsr
    cases team <;>
    · simp only [ChessRules.isStartingRow, ChessRules.pawnDirection,
        isValidPosition, decide_eq_true_eq] at hsr hpos ⊢
      omega
  have hvd : ChessRules.isStartingRow team pos = true →
      isValidPosition ⟨pos.x, pos.z + 2 * ChessRules.pawnDirection team⟩ = true := by
    intro hsr
    cases team <;>
    · simp only [ChessRules.isStartingRow, ChessRules.pawnDirection,
        isValidPosition, decide_eq_true_eq] at hsr hpos ⊢
      omega
  refine ⟨?_, rfl, rfl, ?_⟩
  · simp only [ChessRules.getPawnMoves, List.mem_append, List.mem_filter,
      List.mem_cons, List.not_mem_nil, or_false]
    constructor
    · intro h
      rcases h with h | ⟨hq, hcond⟩
      · by_cases h1 : (isValidPosition ⟨pos.x, pos.z + ChessRules.pawnDirection team⟩ &&
            !ChessRules.isPositionOccupied b
              ⟨pos.x, pos.z + ChessRules.pawnDirection team⟩) = true
        · rw [if_pos h1] at h
          rw [Bool.and_eq_true, Bool.not_eq_true'] at h1
          by_cases h2 : (ChessRules.isStartingRow team pos &&
              isValidPosition ⟨pos.x, pos.z + 2 * ChessRules.pawnDirection team⟩ &&
              !ChessRules.isPositionOccupied b
                ⟨pos.x, pos.z + 2 * ChessRules.pawnDirection team⟩) = true
          · rw [if_pos h2] at h
            rw [Bool.and_eq_true, Bool.and_eq_true, Bool.not_eq_true'] at h2
            rcases List.mem_cons.mp h with rfl | h
            · exact Or.inl ⟨rfl, h1.1, h1.2⟩
            · rcases List.mem_singleton.mp h with rfl
              exact Or.inr (Or.inl ⟨rfl, h2.1.1, h1.2, h2.2⟩)
          · rw [if_neg h2] at h
            rcases List.mem_singleton.mp h with rfl
            exact Or.inl ⟨rfl, h1.1, h1.2⟩
        · rw [if_neg h1] at h
          simp at h
      · rw [Bool.and_eq_true] at hcond
        exact Or.inr (Or.inr ⟨hq, hcond.1, hcond.2⟩)
    · intro h
      rcases h with ⟨rfl, hv, ho⟩ | ⟨rfl, hsr, hof, hod⟩ | ⟨hq, hv, hop⟩
      · left
        rw [if_pos (by rw [Bool.and_eq_true, Bool.not_eq_true']; exact ⟨hv, ho⟩)]
        by_cases h2 : (ChessRules.isStartingRow team pos &&
            isValidPosition ⟨pos.x, pos.z + 2 * ChessRules.pawnDirection team⟩ &&
            !ChessRules.isPositionOccupied b
              ⟨pos.x, pos.z + 2 * ChessRules.pawnDirection team⟩) = true
        · rw [if_pos h2]
          exact List.mem_cons_self _ _
        · rw [if_neg h2]
          exact List.mem_singleton.mpr rfl
      · left
        have g1 : (isValidPosition ⟨pos.x, pos.z + ChessRules.pawnDirection team⟩ &&
            !ChessRules.isPositionOccupied b
              ⟨pos.x, pos.z + ChessRules.pawnDirection team⟩) = true := by
          rw [Bool.and_eq_true, Bool.not_eq_true']
          exact ⟨hvf hsr, hof⟩
        have g2 : (ChessRules.isStartingRow team pos &&
            isValidPosition ⟨pos.x, pos.z + 2 * ChessRules.pawnDirection team⟩ &&
            !ChessRules.isPositionOccupied b
              ⟨pos.x, pos.z + 2 * ChessRules.pawnDirection team⟩) = true := by
          rw [Bool.and_eq_true, Bool.and_eq_true, Bool.not_eq_true']
          exact ⟨⟨hsr, hvd hsr⟩, hod⟩
        rw [if_pos g1, if_pos g2]
        exact List.mem_cons_of_mem _ (List.mem_singleton.mpr rfl)
      · refine Or.inr ⟨?_, by rw [Bool.and_eq_true]; exact ⟨hv, hop⟩⟩
        rcases hq with rfl | rfl
        exacts [Or.inl rfl, Or.inr rfl]
  · cases team <;> simp [ChessRules.isStartingRow]

/-- Witness for C3 at the spec scenario: a white pawn at (4,6) on an
empty board may advance one or two squares but not three. -/
theorem C3_pawn_moves_witness :
    (⟨4, 5⟩ : Pos) ∈ ChessRules.getPawnMoves [] .white ⟨4, 6⟩ ∧
    (⟨4, 4⟩ : Pos) ∈ ChessRules.getPawnMoves [] .white ⟨4, 6⟩ ∧
    (⟨4, 3⟩ : Pos) ∉ ChessRules.getPawnMoves [] .white ⟨4, 6⟩ := by
  refine ⟨?_, ?_, by decide⟩
  · exact (C3_pawn_moves [] .white ⟨4, 6⟩ (by decide) ⟨4, 5⟩).1.mpr
      (Or.inl ⟨by decide, by decide, by decide⟩)
  · exact (C3_pawn_moves [] .white ⟨4, 6⟩ (by decide) ⟨4, 4⟩).1.mpr
      (Or.inr (Or.inl ⟨by decide, by decide, by decide, by decide⟩))

namespace Server

/-- Looking up on a cons: the head entry wins when its key matches. -/
lemma lookupPlayer_cons (e : Nat × Player) (rest : Registry) (id : Nat) :
    lookupPlayer (e :: rest) id =
      if e.1 = id then some e.2 else lookupPlayer rest id := by
  by_cases h : e.1 = id
  · rw [if_pos h]
    unfold lookupPlayer
    rw [List.find?_cons_of_pos _ (by simpa using h)]
    rfl
  · rw [if_neg h]
    unfold lookupPlayer
    rw [List.find?_cons_of_neg _ (by simpa using h)]

/-- After `players.set(id, p)`, looking up `id` yields `p`. -/
lemma lookupPlayer_setPlayer_self (reg : Registry) (id : Nat) (p : Player) :
    lookupPlayer (setPlayer reg id p) id = some p := by
  induction reg with
  | nil => simp [setPlayer, lookupPlayer_cons]
  | cons e rest ih =>
    by_cases h : e.1 = id
    · simp [setPlayer, h, lookupPlayer_cons]
    · simp only [setPlayer, if_neg h]
      rw [lookupPlayer_cons, if_neg h]
      exact ih

/-- After `players.set(id, p)`, other keys are unchanged. -/
lemma lookupPlayer_setPlayer_other (reg : Registry) (id id2 : Nat) (p : Player)
    (hne : id2 ≠ id) :
    lookupPlayer (setPlayer reg id p) id2 = lookupPlayer reg id2 := by
  induction reg with
  | nil =>
    rw [setPlayer, lookupPlayer_cons, if_neg (fun h2 => hne h2.symm)]
  | cons e rest ih =>
    by_cases h : e.1 = id
    · rw [setPlayer, if_pos h, lookupPlayer_cons, lookupPlayer_cons,
        if_neg (fun h2 => hne h2.symm),
        if_neg (fun h2 => hne (h.symm.trans h2).symm)]
    · rw [setPlayer, if_neg h, lookupPlayer_cons, lookupPlayer_cons]
      by_cases h2 : e.1 = id2
      · rw [if_pos h2, if_pos h2]
      · rw [if_neg h2, if_neg h2]
        exact ih

end Server

/-- C4: collecting a petal shield sets the shield flag with duration 10,
but a subsequent damage application subtracts the full amount and leaves
the flag set: the `hasShield` flag written by `Game.collectLoot` is
never read by the vine-beast collision path, and the server ability path
operates on records with no shield state at all, so no damage path
consumes a shield. -/
theorem C4_shield_not_consumed :
    (Game.applyLootEffect c4Player c4Loot).hasShield = true ∧
    (Game.applyLootEffect c4Player c4Loot).shieldDuration = 10 ∧
    (Game.applyLootEffect c4Player c4Loot).hp = 7 ∧
    (Game.vineBeastCollide (Game.applyLootEffect c4Player c4Loot)).hp = 5 ∧
    (Game.vineBeastCollide (Game.applyLootEffect c4Player c4Loot)).hasShield = true ∧
    (Server.abilityHitOne Server.gameSettings c4ServerAttacker (some 3) c4ServerTarget).1.hp = 4 := by
  decide

/-- C5: two successive ability hits on the same piece each drive its
health to or below 0 and each schedule a respawn timer (the `respawning`
flag is set by the first defeat but never consulted), so after the
second hit two respawn timers are outstanding for one defeated piece,
falsifying the claim that defeat handling runs exactly once. -/
theorem C5_defeat_retriggered :
    c5After1.2 = 1 ∧
    Server.lookupPlayer c5After1.1 2 =
      some { c5Target with hp := -1, respawning := true } ∧
    c5After2.2 = 1 ∧
    Server.lookupPlayer c5After2.1 2 =
      some { c5Target with hp := -2, respawning := true } := by
  decide

/-- C6: from a reachable registry, a king at 15 HP hit for 20 damage is
stored at hp = -5 with default settings (respawn enabled): the ability
handler never clamps, and `handlePlayerDefeat` clamps health to 0 only
in its respawn-disabled branch. -/
theorem C6_negative_hp_stored :
    Server.lookupPlayer
        (Server.abilityEvent Server.gameSettings c6Registry 1 ⟨4, 0⟩ (some 20)).1 2 =
      some { id := 2, type := .king, team := .black, position := ⟨4, 0⟩,
             hp := -5, respawning := true, isSpectator := false } ∧
    Server.gameSettings.respawnEnabled = true ∧
    (Server.handlePlayerDefeat { Server.gameSettings with respawnEnabled := false }
        { id := 2, type := .king, team := .black, position := ⟨4, 0⟩,
          hp := -5, respawning := false, isSpectator := false }).1.hp = 0 := by
  decide

/-- C7 counterexample: the attacker's cooldown is 5 > 0, yet the server
ability handler still damages the target (it stores and checks no
cooldown at all), so the engine does not reject ability intents sent
while the attacker's cooldown is positive. -/
theorem C7_counterexample :
    c7Attacker.cooldown > 0 ∧
    Server.lookupPlayer
        (Server.abilityEvent Server.gameSettings c7Registry 1 ⟨3, 3⟩ (some 2)).1 2 =
      some { c7Target with hp := 3 } ∧
    (Server.abilityEvent Server.gameSettings c7Registry 1 ⟨3, 3⟩ (some 2)).1 ≠ c7Registry := by
  decide

/-- C7 (amended): cooldown gating exists only in the client
`ChessPiece.useAbility`, which is a no-op (no state change, no emitted
ability) when the cooldown is positive and otherwise sets the cooldown
to the fixed per-type value: pawn 5, rook 10, knight 8, bishop 7,
queen 12, king 15. -/
theorem C7_amended (p : Client.ClientPiece) :
    (p.cooldown > 0 → Client.useAbility p = (none, p)) ∧
    (¬ p.cooldown > 0 →
      Client.useAbility p =
        (some (Client.getAbilityDetails p.type),
          { p with cooldown := (Client.getAbilityDetails p.type).cooldown })) ∧
    (Client.getAbilityDetails .pawn).cooldown = 5 ∧
    (Client.getAbilityDetails .rook).cooldown = 10 ∧
    (Client.getAbilityDetails .knight).cooldown = 8 ∧
    (Client.getAbilityDetails .bishop).cooldown = 7 ∧
    (Client.getAbilityDetails .queen).cooldown = 12 ∧
    (Client.getAbilityDetails .king).cooldown = 15 := by
  refine ⟨?_, ?_, rfl, rfl, rfl, rfl, rfl, rfl⟩
  · intro h
    simp [Client.useAbility, h]
  · intro h
    simp [Client.useAbility, h]

/-- Witness for the amended C7 theorem: a pawn on cooldown changes
nothing; a rook off cooldown gets cooldown 10. -/
theorem C7_amended_witness :
    Client.useAbility { type := .pawn, cooldown := 5 } =
      (none, { type := .pawn, cooldown := 5 }) ∧
    Client.useAbility { type := .rook, cooldown := 0 } =
      (some (Client.getAbilityDetails .rook), { type := .rook, cooldown := 10 }) := by
  constructor
  · exact (C7_amended { type := .pawn, cooldown := 5 }).1 (by decide)
  · exact (C7_amended { type := .rook, cooldown := 0 }).2.1 (by decide)

/-- C8 counterexample: registering id 1 twice leaves the second piece's
data in the registry; the first piece's type, team, position and health
are all replaced rather than the duplicate being rejected. -/
theorem C8_counterexample :
    Server.lookupPlayer
        (Server.confirmPieceAssignment (Server.confirmPieceAssignment [] c8First) c8Second) 1 =
      some { id := 1, type := .queen, team := .black, position := ⟨3, 0⟩,
             hp := 10, respawning := false, isSpectator := false } ∧
    Server.mkConfirmedPlayer c8First =
      { id := 1, type := .pawn, team := .white, position := ⟨0, 6⟩,
        hp := 5, respawning := false, isSpectator := false } ∧
    Server.mkConfirmedPlayer c8Second ≠ Server.mkConfirmedPlayer c8First := by
  decide

/-- C8 (amended): a registration for an id already present is accepted
and silently replaces the stored piece data, leaving entries under all
other ids unchanged; no duplicate-id rejection exists. -/
theorem C8_amended (reg : Server.Registry) (data : Server.ConfirmData) :
    Server.lookupPlayer (Server.confirmPieceAssignment reg data) data.id =
      some (Server.mkConfirmedPlayer data) ∧
    ∀ id2, id2 ≠ data.id →
      Server.lookupPlayer (Server.confirmPieceAssignment reg data) id2 =
        Server.lookupPlayer reg id2 := by
  constructor
  · exact Server.lookupPlayer_setPlayer_self reg data.id (Server.mkConfirmedPlayer data)
  · intro id2 hne
    exact Server.lookupPlayer_setPlayer_other reg data.id id2
      (Server.mkConfirmedPlayer data) hne

/-- Witness for the amended C8 theorem: re-registering id 1 overwrites
its entry and leaves id 2 untouched. -/
theorem C8_amended_witness :
    Server.lookupPlayer
        (Server.confirmPieceAssignment [(1, Server.mkConfirmedPlayer c8First),
          (2, c8Other)] c8Second) 1 =
      some (Server.mkConfirmedPlayer c8Second) ∧
    Server.lookupPlayer
        (Server.confirmPieceAssignment [(1, Server.mkConfirmedPlayer c8First),
          (2, c8Other)] c8Second) 2 =
      some c8Other := by
  constructor
  · exact (C8_amended [(1, Server.mkConfirmedPlayer c8First), (2, c8Other)] c8Second).1
  · rw [(C8_amended [(1, Server.mkConfirmedPlayer c8First), (2, c8Other)] c8Second).2
      2 (by decide)]
    decide

/-- C9: when the defeated piece's id has been removed from the registry
before the respawn timer fires, the timer's callback leaves the registry
exactly as it found it: no entry is mutated and the removed id is not
recreated. -/
theorem C9_respawn_after_disconnect (reg : Server.Registry) (id : Nat) (newPos : Pos)
    (h : Server.lookupPlayer reg id = none) :
    Server.respawnCallback reg id newPos = reg ∧
    Server.lookupPlayer (Server.respawnCallback reg id newPos) id = none := by
  have heq : Server.respawnCallback reg id newPos = reg := by
    unfold Server.respawnCallback
    rw [h]
    rfl
  refine ⟨heq, ?_⟩
  rw [heq]
  exact h

/-- Witness for C9: with id 3 already disconnected, the respawn callback
for id 3 changes nothing in a registry holding only id 6. -/
theorem C9_respawn_after_disconnect_witness :
    Server.respawnCallback [(6, c9Survivor)] 3 ⟨0, 0⟩ = [(6, c9Survivor)] ∧
    Server.lookupPlayer (Server.respawnCallback [(6, c9Survivor)] 3 ⟨0, 0⟩) 3 = none := by
  exact C9_respawn_after_disconnect [(6, c9Survivor)] 3 ⟨0, 0⟩ (by decide)

namespace Server

/-- For a piece selected by the target filter, one ability hit subtracts
exactly the effective damage of the message; with respawn enabled the
defeat branch changes no health beyond that subtraction. -/
lemma abilityHitOne_fst (settings : GameSettings) (attacker : Player)
    (damage : Option Int) (t : Player)
    (hresp : settings.respawnEnabled = true)
    (hT : isAbilityTarget settings attacker target t = true) :
    (abilityHitOne settings attacker damage t).1 =
      if t.hp - effectiveDamage damage ≤ 0 then
        { t with hp := t.hp - effectiveDamage damage, respawning := true }
      else
        { t with hp := t.hp - effectiveDamage damage } := by
  have hg : (!settings.friendlyFire && (t.team == attacker.team)) = false := by
    unfold isAbilityTarget at hT
    rw [Bool.and_eq_true, Bool.or_eq_true] at hT
    rcases hT with ⟨-, hff | hne⟩
    · rw [hff]
      rfl
    · have hb : (t.team == attacker.team) = false := by
        simpa [bne] using hne
      rw [hb, Bool.and_false]
  by_cases hle : t.hp - effectiveDamage damage ≤ 0
  · simp [abilityHitOne, handlePlayerDefeat, hg, hresp, hle]
  · simp [abilityHitOne, handlePlayerDefeat, hg, hresp, hle]

end Server

/-- C10: for every accepted ability message, each occupant of the target
square passing the friendly-fire filter loses exactly
`effectiveDamage damage` health, where the effective damage is the
message's damage value when it is present and nonzero and 1 when it is
absent or zero; the subtraction is computed from the message alone,
never from the attacker's piece-type ability table. -/
theorem C10_damage_from_message (settings : Server.GameSettings)
    (hresp : settings.respawnEnabled = true)
    (reg : Server.Registry) (attackerId : Nat) (target : Pos) (damage : Option Int)
    (attacker : Server.Player)
    (hatt : Server.lookupPlayer reg attackerId = some attacker) :
    (Server.abilityEvent settings reg attackerId target damage).1 =
      reg.map (fun e =>
        if Server.isAbilityTarget settings attacker target e.2 then
          (e.1,
            if e.2.hp - Server.effectiveDamage damage ≤ 0 then
              { e.2 with hp := e.2.hp - Server.effectiveDamage damage, respawning := true }
            else
              { e.2 with hp := e.2.hp - Server.effectiveDamage damage })
        else e) ∧
    (∀ v : Int, v ≠ 0 → Server.effectiveDamage (some v) = v) ∧
    Server.effectiveDamage (some 0) = 1 ∧
    Server.effectiveDamage none = 1 := by
  refine ⟨?_, ?_, rfl, rfl⟩
  · unfold Server.abilityEvent
    rw [hatt]
    simp only [List.map_map]
    congr 1
    funext e
    by_cases hT : Server.isAbilityTarget settings attacker target e.2 = true
    · simp only [Function.comp_apply, if_pos hT]
      exact congrArg (fun v => (e.1, v)) (Server.abilityHitOne_fst settings attacker damage e.2 hresp hT)
    · simp only [Function.comp_apply, if_neg hT]
  · intro v hv
    simp [Server.effectiveDamage, hv]

/-- Witness for C10: a knight (table damage 1) sends damage 3 and the
target loses exactly 3 health. -/
theorem C10_damage_from_message_witness :
    (Server.abilityEvent Server.gameSettings c10Registry 1 ⟨4, 4⟩ (some 3)).1 =
      [(1, c10Attacker), (2, { c10Target with hp := 4 })] ∧
    Server.effectiveDamage (some 3) = 3 := by
  have h := C10_damage_from_message Server.gameSettings rfl c10Registry 1 ⟨4, 4⟩
    (some 3) c10Attacker (by decide)
  constructor
  · rw [h.1]
    decide
  · exact h.2.1 3 (by decide)
